import Mathlib

/-!
Verification of the host-side prover orchestration layer
(`risc0/zkvm/src/host/server/prove/{mod.rs, prover_impl.rs}`).

The data model and the orchestration functions (`compress`, `prove_session`,
`prove_segment`, `get_prover_server`) are shallowly embedded below.  External
collaborators (the recursion primitives `lift`/`join`/`resolve`, receipt
verification, claim extraction, the hardware backend) are modelled as abstract
function fields of a `Prover` structure: the theorems quantify over them, so
they hold for every behaviour of the collaborators.  Fallible Rust code
returning `anyhow::Result` is modelled with `Except Err`, with `bindE` playing
the role of the `?` operator.  Side effects the claims speak about (observer
hooks, commit ordering, the dev-mode warning) are modelled as explicit
event/warning traces.
-/

/-- Digests are abstract values; only equality between them matters here. -/
abbrev Digest := Nat

/-- A receipt claim; the orchestration layer only ever compares its digest. -/
structure Claim where
  digest : Digest
deriving DecidableEq, Repr

/-- Error values produced by the orchestration layer.  Each constructor stands
for one distinct `bail!`/`anyhow!` site of the source (with the data the
formatted message carries), plus `backendErr` for errors propagated unchanged
from the abstract collaborators. -/
inductive Err where
  | claimMismatch (sessionDigest receiptDigest : Digest)
  | emptyComposite
  | fakeAssumption
  | groth16Assumption
  | unsupportedHashfn (name : String)
  | backendErr (msg : String)
deriving DecidableEq, Repr

/-- The `?` operator on `anyhow::Result`: propagate the error, or continue
with the value. -/
def bindE (x : Except Err α) (f : α → Except Err β) : Except Err β :=
  match x with
  | .error e => .error e
  | .ok a => f a

/-- `Journal`: the public output bytes of a session (`Vec<u8>` in the source,
with `Default` giving the empty byte string). -/
structure Journal where
  bytes : List Nat
deriving DecidableEq, Repr

/-- `SuccinctReceipt`: fixed-size receipt produced by the recursion
primitives; opaque to the orchestration layer apart from its claim. -/
structure SuccinctReceipt where
  sealWords : List Nat
  claim : Claim
deriving DecidableEq, Repr

/-- `SegmentReceipt { seal, index, hashfn, claim }` (the `seal` field is
named `sealWords` because `seal` is a reserved word in Lean). -/
structure SegmentReceipt where
  sealWords : List Nat
  index : Nat
  hashfn : String
  claim : Claim
deriving DecidableEq, Repr

/-- Payload of a foreign-wrapped (Groth16) receipt; opaque here. -/
structure Groth16Receipt where
  sealWords : List Nat
deriving DecidableEq, Repr

mutual
/-- `InnerReceipt`: the tagged union of receipt representations. -/
inductive InnerReceipt where
  | Succinct (r : SuccinctReceipt)
  | Composite (r : CompositeReceipt)
  | Fake (claim : Claim)
  | Groth16 (r : Groth16Receipt)

/-- `CompositeReceipt { segments, assumptions, journal_digest }`. -/
inductive CompositeReceipt where
  | mk (segments : List SegmentReceipt) (assumptions : List InnerReceipt)
      (journal_digest : Option Digest)
end

/-- The segment receipts of a composite receipt. -/
def CompositeReceipt.segments : CompositeReceipt → List SegmentReceipt
  | .mk s _ _ => s

/-- The assumption receipts of a composite receipt. -/
def CompositeReceipt.assumptions : CompositeReceipt → List InnerReceipt
  | .mk _ a _ => a

/-- `Receipt { inner, journal }`: the externally handed-back artifact. -/
structure Receipt where
  inner : InnerReceipt
  journal : List Nat

/-- A reference to a segment, resolved (fallibly) to the segment itself. -/
structure SegmentRef where
  id : Nat
deriving DecidableEq, Repr

/-- The slice of `Segment` the orchestration layer reads: index, power-of-two
cycle bound and cycle count. -/
structure Segment where
  index : Nat
  po2 : Nat
  cycles : Nat
deriving DecidableEq, Repr

/-- An assumption dependency of a session (`Assumption`); opaque here, turned
into a receipt by the abstract `asReceipt` collaborator. -/
structure Assumption where
  id : Nat
deriving DecidableEq, Repr

/-- `VerifierContext`: passed through, never mutated. -/
structure VerifierContext where
  id : Nat
deriving DecidableEq, Repr

/-- `Session`: ordered segment references, exit code, optional journal,
assumptions and observer hooks (hooks are identified by opaque ids; only the
order and timing of their invocation matters to the claims). -/
structure Session where
  segments : List SegmentRef
  exit_code : Nat
  journal : Option Journal
  assumptions : List Assumption
  hooks : List Nat

/-- The abstract proving service: the hash-suite identity of its backend plus
every external collaborator `prove_session` / `prove_segment` / `compress`
call into.  Quantifying theorems over this structure makes them hold for every
backend behaviour. -/
structure Prover where
  hashSuiteName : String
  resolveRef : SegmentRef → Except Err Segment
  proveSegmentFn : VerifierContext → Segment → Except Err SegmentReceipt
  asReceipt : Assumption → Except Err Receipt
  journalDigest : Journal → Digest
  compositeVerify : VerifierContext → CompositeReceipt → Except Err Unit
  compositeClaim : CompositeReceipt → Except Err Claim
  receiptVerify : VerifierContext → Receipt → Except Err Unit
  receiptClaim : Receipt → Except Err Claim
  sessionClaim : Session → Except Err Claim
  lift : SegmentReceipt → Except Err SuccinctReceipt
  join : SuccinctReceipt → SuccinctReceipt → Except Err SuccinctReceipt
  resolve : SuccinctReceipt → SuccinctReceipt → Except Err SuccinctReceipt
  identity_p254 : SuccinctReceipt → Except Err SuccinctReceipt
  prepareGlobals : Segment → Except Err (List Nat)
  load : Segment → Except Err Unit
  finalizeSeal : Segment → List Nat
  segGetClaim : Segment → Except Err Claim
  segVerify : VerifierContext → SegmentReceipt → Except Err Unit

/-- The continuation `try_fold` of the default `compress`: running
accumulator starts at `none`; for each segment receipt, either `lift` it
(first) or `join` the accumulator with its `lift` (subsequent). -/
def liftJoinFold (ps : Prover) :
    Option SuccinctReceipt → List SegmentReceipt → Except Err (Option SuccinctReceipt)
  | acc, [] => .ok acc
  | none, r :: rest =>
    bindE (ps.lift r) fun s => liftJoinFold ps (some s) rest
  | some l, r :: rest =>
    bindE (ps.lift r) fun s =>
      bindE (ps.join l s) fun j => liftJoinFold ps (some j) rest

mutual
/-- The default `ProverServer::compress`: continuation fold over the segment
receipts (empty list is a malformed-input error), then the assumption fold. -/
def compress (ps : Prover) : CompositeReceipt → Except Err SuccinctReceipt
  | .mk segments assumptions _jd =>
    bindE (liftJoinFold ps none segments) fun acc =>
      match acc with
      | none => .error .emptyComposite
      | some continuation => resolveFold ps continuation assumptions

/-- The assumption `try_fold` of the default `compress`: resolve each
assumption in listed order; recursively compress `Composite` assumptions;
reject `Fake` and `Groth16` assumptions with distinct errors. -/
def resolveFold (ps : Prover) (conditional : SuccinctReceipt) :
    List InnerReceipt → Except Err SuccinctReceipt
  | [] => .ok conditional
  | .Succinct a :: rest =>
    bindE (ps.resolve conditional a) fun c => resolveFold ps c rest
  | .Composite a :: rest =>
    bindE (compress ps a) fun s =>
      bindE (ps.resolve conditional s) fun c => resolveFold ps c rest
  | .Fake _ :: _ => .error .fakeAssumption
  | .Groth16 _ :: _ => .error .groth16Assumption
end

/-- Modelled from the spec (4.3, claim C2 reference fold): lift the first
segment receipt, then join the accumulator (as earlier) with the lift of each
subsequent one. -/
def specLiftJoin (ps : Prover) (acc : SuccinctReceipt) :
    List SegmentReceipt → Except Err SuccinctReceipt
  | [] => .ok acc
  | r :: rest =>
    bindE (ps.lift r) fun s =>
      bindE (ps.join acc s) fun j => specLiftJoin ps j rest

mutual
/-- Modelled from the spec (4.3, claim C2 reference fold): the reference
compression — continuation fold written with an explicit first lift, then the
assumption fold. -/
def specCompress (ps : Prover) : CompositeReceipt → Except Err SuccinctReceipt
  | .mk [] _ _ => .error .emptyComposite
  | .mk (r0 :: rest) assumptions _jd =>
    bindE (ps.lift r0) fun acc0 =>
      bindE (specLiftJoin ps acc0 rest) fun continuation =>
        specResolveFold ps continuation assumptions

/-- Modelled from the spec (4.3): the reference assumption fold, resolving in
listed order against succinct assumptions or recursively compressed composite
assumptions. -/
def specResolveFold (ps : Prover) (conditional : SuccinctReceipt) :
    List InnerReceipt → Except Err SuccinctReceipt
  | [] => .ok conditional
  | .Succinct a :: rest =>
    bindE (ps.resolve conditional a) fun c => specResolveFold ps c rest
  | .Composite a :: rest =>
    bindE (specCompress ps a) fun s =>
      bindE (ps.resolve conditional s) fun c => specResolveFold ps c rest
  | .Fake _ :: _ => .error .fakeAssumption
  | .Groth16 _ :: _ => .error .groth16Assumption
end

/-- Fallible map (`collect::<Result<Vec<_>>>` over an iterator of `Result`s). -/
def mapEx (f : α → Except Err β) : List α → Except Err (List β)
  | [] => .ok []
  | a :: rest =>
    bindE (f a) fun b =>
      bindE (mapEx f rest) fun bs => .ok (b :: bs)

/-- Events observable during `prove_session`: observer callbacks and the
production of each segment proof, tagged with the segment index. -/
inductive SessEvent where
  | preHook (hook : Nat) (segIndex : Nat)
  | provedSegment (segIndex : Nat)
  | postHook (hook : Nat) (segIndex : Nat)
deriving DecidableEq, Repr

/-- The per-segment loop of `prove_session`: resolve the segment reference,
run every pre-observer hook, prove the segment, run every post-observer hook;
collect the segment receipts.  Returns the events emitted up to success or
first failure. -/
def proveSegments (ps : Prover) (ctx : VerifierContext) (hooks : List Nat) :
    List SegmentRef → List SessEvent × Except Err (List SegmentReceipt)
  | [] => ([], .ok [])
  | r :: rest =>
    match ps.resolveRef r with
    | .error e => ([], .error e)
    | .ok seg =>
      let pres := hooks.map fun h => SessEvent.preHook h seg.index
      match ps.proveSegmentFn ctx seg with
      | .error e => (pres, .error e)
      | .ok sr =>
        let posts := hooks.map fun h => SessEvent.postHook h seg.index
        let (evs, res) := proveSegments ps ctx hooks rest
        (pres ++ SessEvent.provedSegment seg.index :: (posts ++ evs),
         bindE res fun srs => .ok (sr :: srs))

/-- Assembly of the `CompositeReceipt` in `prove_session`: unwrap each session
assumption to its inner receipt, and digest the journal if present. -/
def assembleComposite (ps : Prover) (sess : Session)
    (segments : List SegmentReceipt) : Except Err CompositeReceipt :=
  bindE (mapEx (fun a => bindE (ps.asReceipt a) fun r => .ok r.inner)
      sess.assumptions) fun assumptions =>
    .ok (.mk segments assumptions (sess.journal.map ps.journalDigest))

/-- The raw journal bytes handed to `Receipt::new`:
`session.journal.clone().unwrap_or_default().bytes`. -/
def journalBytes (sess : Session) : List Nat :=
  (sess.journal.getD ⟨[]⟩).bytes

/-- The tail of `prove_session` after the inner representation is chosen:
build the `Receipt` from the inner representation and the raw journal bytes,
verify its integrity, and re-check claim-digest equality against the session
(defense against compression-introduced corruption). -/
def finalizeReceipt (ps : Prover) (ctx : VerifierContext) (sess : Session)
    (inner : InnerReceipt) : Except Err Receipt :=
  bindE (ps.receiptVerify ctx ⟨inner, journalBytes sess⟩) fun _ =>
    bindE (ps.receiptClaim ⟨inner, journalBytes sess⟩) fun rClaim =>
      bindE (ps.sessionClaim sess) fun sClaim =>
        if rClaim.digest = sClaim.digest then .ok ⟨inner, journalBytes sess⟩
        else .error (.claimMismatch sClaim.digest rClaim.digest)

/-- The choice of inner representation in `prove_session`: the hash suite
`"poseidon"` supports recursion, so the composite is compressed; any other
suite keeps the composite form. -/
def chooseInner (ps : Prover) (composite : CompositeReceipt) :
    Except Err InnerReceipt :=
  if ps.hashSuiteName = "poseidon" then
    bindE (compress ps composite) fun s => .ok (InnerReceipt.Succinct s)
  else .ok (InnerReceipt.Composite composite)

/-- The tail of `prove_session` after the segment loop: assemble the composite
receipt, verify its integrity, check claim-digest equality against the session
(mismatch is fatal and carries both digests), choose the inner representation
by hash suite, and finalize. -/
def finishSession (ps : Prover) (ctx : VerifierContext) (sess : Session)
    (segments : List SegmentReceipt) : Except Err Receipt :=
  bindE (assembleComposite ps sess segments) fun composite =>
    bindE (ps.compositeVerify ctx composite) fun _ =>
      bindE (ps.compositeClaim composite) fun cClaim =>
        bindE (ps.sessionClaim sess) fun sClaim =>
          if cClaim.digest = sClaim.digest then
            bindE (chooseInner ps composite) fun inner =>
              finalizeReceipt ps ctx sess inner
          else .error (.claimMismatch sClaim.digest cClaim.digest)

/-- `ProverImpl::prove_session`: the segment loop followed by composite
assembly, the two integrity/claim checks and the hash-suite-driven choice of
representation; paired with the emitted observer-event trace. -/
def proveSession (ps : Prover) (ctx : VerifierContext) (sess : Session) :
    List SessEvent × Except Err Receipt :=
  let (evs, res) := proveSegments ps ctx sess.hooks sess.segments
  (evs, bindE res fun segments => finishSession ps ctx sess segments)

/-- The three register groups committed by `prove_segment`. -/
inductive RegisterGroup where
  | CODE
  | DATA
  | ACCUM
deriving DecidableEq, Repr

/-- Events observable during `prove_segment`, in particular the transcript
interactions of the commit/challenge protocol. -/
inductive SegEvent where
  | executorFinalized
  | adapterExecuted
  | po2Set (po2 : Nat)
  | committed (g : RegisterGroup)
  | accumulated
  | sealFinalized
deriving DecidableEq, Repr

/-- `ProverImpl::prove_segment`: prepare the global io vector, replay the
trace through the circuit executor (`loader.load`), then the straight-line
commit/challenge protocol — commit the code group, commit the data group,
compute the accumulator values (`adapter.accumulate`, which draws transcript
challenges), commit the accumulator group, and finalize to a seal; package and
verify the `SegmentReceipt`.  Paired with the emitted event trace. -/
def proveSegmentT (ps : Prover) (ctx : VerifierContext) (seg : Segment) :
    List SegEvent × Except Err SegmentReceipt :=
  match ps.prepareGlobals seg with
  | .error e => ([], .error e)
  | .ok _io =>
    match ps.load seg with
    | .error e => ([], .error e)
    | .ok _ =>
      let evs : List SegEvent :=
        [.executorFinalized, .adapterExecuted, .po2Set seg.po2,
         .committed .CODE, .committed .DATA, .accumulated, .committed .ACCUM,
         .sealFinalized]
      match ps.segGetClaim seg with
      | .error e => (evs, .error e)
      | .ok claim =>
        let receipt : SegmentReceipt :=
          ⟨ps.finalizeSeal seg, seg.index, ps.hashSuiteName, claim⟩
        match ps.segVerify ctx receipt with
        | .error e => (evs, .error e)
        | .ok _ => (evs, .ok receipt)

/-- `ProverOpts { hashfn }`. -/
structure ProverOpts where
  hashfn : String
deriving DecidableEq, Repr

/-- The hash suite constructed by the backend factories. -/
inductive HashSuiteKind where
  | sha256
  | poseidon
deriving DecidableEq, Repr

/-- The mutually exclusive compiled-in hardware backends selected by
`cfg_if!`. -/
inductive Backend where
  | cuda
  | metal
  | cpu
deriving DecidableEq, Repr

/-- The outcome of prover-server construction: the dev-mode stub, or a
`ProverImpl` tagged with the backend's name and carrying the selected hash
suite. -/
inductive ServerChoice where
  | devStub
  | prover (name : String) (suite : HashSuiteKind)
deriving DecidableEq, Repr

/-- `cuda::get_prover_server`: select the commitment scheme by hash-suite
name; an unrecognized name fails, naming the unsupported value. -/
def cudaGetProverServer (opts : ProverOpts) : Except Err ServerChoice :=
  if opts.hashfn = "sha-256" then .ok (.prover "cuda" .sha256)
  else if opts.hashfn = "poseidon" then .ok (.prover "cuda" .poseidon)
  else .error (.unsupportedHashfn opts.hashfn)

/-- `metal::get_prover_server`: same selection for the Metal backend. -/
def metalGetProverServer (opts : ProverOpts) : Except Err ServerChoice :=
  if opts.hashfn = "sha-256" then .ok (.prover "metal" .sha256)
  else if opts.hashfn = "poseidon" then .ok (.prover "metal" .poseidon)
  else .error (.unsupportedHashfn opts.hashfn)

/-- `cpu::get_prover_server`: same selection for the CPU fallback. -/
def cpuGetProverServer (opts : ProverOpts) : Except Err ServerChoice :=
  if opts.hashfn = "sha-256" then .ok (.prover "cpu" .sha256)
  else if opts.hashfn = "poseidon" then .ok (.prover "cpu" .poseidon)
  else .error (.unsupportedHashfn opts.hashfn)

/-- The reduced-security warning printed when dev mode is enabled. -/
def devModeWarning : String :=
  "WARNING: proving in dev mode. This will not generate valid, secure proofs."

/-- Top-level `get_prover_server`: if the process-wide dev-mode flag is set,
print the warning and return the stub without inspecting the options;
otherwise dispatch to the compiled-in backend's factory.  The dev-mode flag
(`is_dev_mode()`) and the `cfg_if!` backend choice are threaded as explicit
parameters.  Paired with the printed warnings. -/
def getProverServer (devMode : Bool) (bk : Backend) (opts : ProverOpts) :
    List String × Except Err ServerChoice :=
  if devMode then ([devModeWarning], .ok .devStub)
  else
    ([],
     match bk with
     | .cuda => cudaGetProverServer opts
     | .metal => metalGetProverServer opts
     | .cpu => cpuGetProverServer opts)

/-- Transcript-relevant events of `prove_segment`: group commits and the
accumulator computation. -/
def isCommitish : SegEvent → Bool
  | .committed _ => true
  | .accumulated => true
  | _ => false

/-- The fixed order required of the register-group commitments: control/code
trace, data trace, then the accumulator values (computed from transcript
challenges drawn after the first two commitments), then the accumulator
commitment. -/
def commitOrder : List SegEvent :=
  [.committed .CODE, .committed .DATA, .accumulated, .committed .ACCUM]

/-- The event block of one segment in the `prove_session` loop: every
pre-observer hook, the segment proof, every post-observer hook. -/
def segmentBlock (hooks : List Nat) (idx : Nat) : List SessEvent :=
  (hooks.map fun h => SessEvent.preHook h idx) ++
    SessEvent.provedSegment idx :: (hooks.map fun h => SessEvent.postHook h idx)

/-- Project the segment index out of a proof-production event. -/
def provedIdx : SessEvent → Option Nat
  | .provedSegment i => some i
  | _ => none

/-- A concrete prover instance whose collaborators all succeed; used to
instantiate the theorems at concrete inputs. -/
def okProver : Prover where
  hashSuiteName := "poseidon"
  resolveRef := fun r => .ok ⟨r.id, 20, 1024⟩
  proveSegmentFn := fun _ s => .ok ⟨[s.index], s.index, "poseidon", ⟨0⟩⟩
  asReceipt := fun _ => .ok ⟨.Succinct ⟨[9], ⟨3⟩⟩, []⟩
  journalDigest := fun _ => 5
  compositeVerify := fun _ _ => .ok ()
  compositeClaim := fun _ => .ok ⟨0⟩
  receiptVerify := fun _ _ => .ok ()
  receiptClaim := fun _ => .ok ⟨0⟩
  sessionClaim := fun _ => .ok ⟨0⟩
  lift := fun r => .ok ⟨r.sealWords, r.claim⟩
  join := fun a b => .ok ⟨a.sealWords ++ b.sealWords, b.claim⟩
  resolve := fun a _ => .ok a
  identity_p254 := fun a => .ok a
  prepareGlobals := fun _ => .ok []
  load := fun _ => .ok ()
  finalizeSeal := fun s => [s.index]
  segGetClaim := fun _ => .ok ⟨0⟩
  segVerify := fun _ _ => .ok ()

def mismatchProver : Prover :=
  { okProver with compositeClaim := fun _ => .ok ⟨1⟩ }

def shaProver : Prover := { okProver with hashSuiteName := "sha-256" }

def sessNoJournal : Session := ⟨[], 0, none, [], []⟩

def sessOneSeg : Session := ⟨[⟨0⟩], 0, none, [], [3]⟩

def sessWithJournal : Session := ⟨[⟨0⟩], 0, some ⟨[1, 2]⟩, [], []⟩

def sessTwoSegs : Session := ⟨[⟨0⟩, ⟨1⟩], 0, none, [], [7]⟩

@[simp] theorem bindE_error (e : Err) (f : α → Except Err β) :
    bindE (.error e) f = .error e := rfl

@[simp] theorem bindE_ok (a : α) (f : α → Except Err β) :
    bindE (.ok a) f = f a := rfl

lemma liftJoinFold_some (ps : Prover) :
    ∀ (rest : List SegmentReceipt) (acc : SuccinctReceipt),
      liftJoinFold ps (some acc) rest =
        bindE (specLiftJoin ps acc rest) fun s => .ok (some s) := by
  intro rest
  induction rest with
  | nil => intro acc; simp [liftJoinFold, specLiftJoin]
  | cons r rest ih =>
    intro acc
    simp only [liftJoinFold, specLiftJoin]
    cases hl : ps.lift r with
    | error e => simp
    | ok s =>
      simp only [bindE_ok]
      cases hj : ps.join acc s with
      | error e => simp
      | ok j => simpa using ih j

lemma compress_spec_aux (ps : Prover) :
    ∀ n : Nat,
      (∀ c : CompositeReceipt, sizeOf c ≤ n → compress ps c = specCompress ps c) ∧
      (∀ (l : List InnerReceipt) (cond : SuccinctReceipt), sizeOf l ≤ n →
        resolveFold ps cond l = specResolveFold ps cond l) := by
  intro n
  induction n using Nat.strong_induction_on with
  | _ n ih =>
    constructor
    · rintro ⟨segs, assumps, jd⟩ hle
      have hassump : sizeOf assumps < n := by
        have := CompositeReceipt.mk.sizeOf_spec segs assumps jd
        omega
      have hres : ∀ cond, resolveFold ps cond assumps = specResolveFold ps cond assumps :=
        fun cond => (ih _ hassump).2 assumps cond le_rfl
      cases segs with
      | nil => simp [compress, specCompress, liftJoinFold]
      | cons r0 rest =>
        simp only [compress, specCompress, liftJoinFold]
        cases hl : ps.lift r0 with
        | error e => simp
        | ok s =>
          simp only [bindE_ok, liftJoinFold_some]
          cases hsj : specLiftJoin ps s rest with
          | error e => simp
          | ok cont => simpa using hres cont
    · intro l
      induction l with
      | nil => intro cond _; rfl
      | cons a rest ihl =>
        intro cond hle
        have hrest : sizeOf rest ≤ n := by
          have : sizeOf (a :: rest) = 1 + sizeOf a + sizeOf rest := by simp
          omega
        cases a with
        | Succinct s =>
          simp only [resolveFold, specResolveFold]
          cases h : ps.resolve cond s with
          | error e => simp
          | ok c => simpa using ihl c hrest
        | Composite comp =>
          have hlt : sizeOf comp < n := by
            have h1 : sizeOf (InnerReceipt.Composite comp :: rest) =
                1 + sizeOf (InnerReceipt.Composite comp) + sizeOf rest := by simp
            have h2 : sizeOf (InnerReceipt.Composite comp) = 1 + sizeOf comp := by simp
            omega
          have hcomp : compress ps comp = specCompress ps comp :=
            (ih (sizeOf comp) hlt).1 comp le_rfl
          simp only [resolveFold, specResolveFold, hcomp]
          cases h1 : specCompress ps comp with
          | error e => simp
          | ok s =>
            simp only [bindE_ok]
            cases h2 : ps.resolve cond s with
            | error e => simp
            | ok c => simpa using ihl c hrest
        | Fake cl => rfl
        | Groth16 g => rfl

/-- C2: for every composite receipt, the default `compress` implementation
equals the reference fold built only from lift, join, resolve and recursive
compression: lift the first segment receipt, join the accumulator (earlier)
with the lift of each subsequent one (later), then resolve each assumption in
listed order, recursively compressing composite assumptions.  In particular
this holds for every composite receipt with at least one segment receipt. -/
theorem c2_compress_eq_reference_fold (ps : Prover) (c : CompositeReceipt) :
    compress ps c = specCompress ps c :=
  (compress_spec_aux ps (sizeOf c)).1 c le_rfl

/-- C3: compressing a composite receipt with an empty segment-receipt list
fails with the malformed-input error, for every assumption list and journal
digest; no default succinct receipt is returned. -/
theorem c3_compress_empty_segments_fails (ps : Prover)
    (assumps : List InnerReceipt) (jd : Option Digest) :
    compress ps (.mk [] assumps jd) = .error .emptyComposite := by
  simp [compress, liftJoinFold]

lemma resolveFold_err_of_unsupported (ps : Prover) :
    ∀ (l : List InnerReceipt) (cond : SuccinctReceipt),
      ((∃ cl, InnerReceipt.Fake cl ∈ l) ∨ (∃ g, InnerReceipt.Groth16 g ∈ l)) →
      ∃ e, resolveFold ps cond l = .error e := by
  intro l
  induction l with
  | nil => rintro cond (⟨cl, h⟩ | ⟨g, h⟩) <;> simp at h
  | cons a rest ih =>
    intro cond hbad
    cases a with
    | Succinct s =>
      have hbad' : (∃ cl, InnerReceipt.Fake cl ∈ rest) ∨
          (∃ g, InnerReceipt.Groth16 g ∈ rest) := by
        rcases hbad with ⟨cl, h⟩ | ⟨g, h⟩
        · exact Or.inl ⟨cl, by simpa using h⟩
        · exact Or.inr ⟨g, by simpa using h⟩
      simp only [resolveFold]
      cases h : ps.resolve cond s with
      | error e => exact ⟨e, by simp⟩
      | ok c => simpa using ih c hbad'
    | Composite comp =>
      have hbad' : (∃ cl, InnerReceipt.Fake cl ∈ rest) ∨
          (∃ g, InnerReceipt.Groth16 g ∈ rest) := by
        rcases hbad with ⟨cl, h⟩ | ⟨g, h⟩
        · exact Or.inl ⟨cl, by simpa using h⟩
        · exact Or.inr ⟨g, by simpa using h⟩
      simp only [resolveFold]
      cases h1 : compress ps comp with
      | error e => exact ⟨e, by simp⟩
      | ok s =>
        simp only [bindE_ok]
        cases h2 : ps.resolve cond s with
        | error e => exact ⟨e, by simp⟩
        | ok c => simpa using ih c hbad'
    | Fake cl => exact ⟨.fakeAssumption, rfl⟩
    | Groth16 g => exact ⟨.groth16Assumption, rfl⟩

/-- C4: compressing a composite receipt containing a `Fake` or a `Groth16`
assumption always fails (no partial receipt is returned); when the assumption
fold reaches such an assumption it produces the unsupported-assumption error
for that case, and the two errors are distinct. -/
theorem c4_compress_unsupported_assumption_fails (ps : Prover) :
    (∀ (segs : List SegmentReceipt) (assumps : List InnerReceipt)
        (jd : Option Digest),
      ((∃ cl, InnerReceipt.Fake cl ∈ assumps) ∨
        (∃ g, InnerReceipt.Groth16 g ∈ assumps)) →
      ∃ e, compress ps (.mk segs assumps jd) = .error e) ∧
    (∀ (cond : SuccinctReceipt) (cl : Claim) (rest : List InnerReceipt),
      resolveFold ps cond (.Fake cl :: rest) = .error .fakeAssumption) ∧
    (∀ (cond : SuccinctReceipt) (g : Groth16Receipt) (rest : List InnerReceipt),
      resolveFold ps cond (.Groth16 g :: rest) = .error .groth16Assumption) ∧
    Err.fakeAssumption ≠ Err.groth16Assumption := by
  refine ⟨?_, fun _ _ _ => rfl, fun _ _ _ => rfl, by decide⟩
  intro segs assumps jd hbad
  simp only [compress]
  cases hf : liftJoinFold ps none segs with
  | error e => exact ⟨e, by simp⟩
  | ok acc =>
    cases acc with
    | none => exact ⟨.emptyComposite, by simp⟩
    | some cont => simpa using resolveFold_err_of_unsupported ps assumps cont hbad

/-- Witness for C4 at a concrete composite receipt with a fake assumption. -/
theorem c4_witness :
    ∃ e, compress okProver
      (CompositeReceipt.mk [⟨[1], 0, "poseidon", ⟨0⟩⟩]
        [InnerReceipt.Fake ⟨0⟩] none) = .error e :=
  (c4_compress_unsupported_assumption_fails okProver).1
    [⟨[1], 0, "poseidon", ⟨0⟩⟩] [InnerReceipt.Fake ⟨0⟩] none
    (Or.inl ⟨⟨0⟩, by simp⟩)

lemma finalizeReceipt_ok (ps : Prover) (ctx : VerifierContext) (sess : Session)
    (inner : InnerReceipt) (r : Receipt)
    (h : finalizeReceipt ps ctx sess inner = .ok r) :
    r = ⟨inner, journalBytes sess⟩ ∧
    ∃ rc sc, ps.receiptClaim r = .ok rc ∧ ps.sessionClaim sess = .ok sc ∧
      rc.digest = sc.digest := by
  unfold finalizeReceipt at h
  cases h1 : ps.receiptVerify ctx ⟨inner, journalBytes sess⟩ with
  | error e => rw [h1] at h; simp at h
  | ok u =>
    rw [h1] at h; simp only [bindE_ok] at h
    cases h2 : ps.receiptClaim ⟨inner, journalBytes sess⟩ with
    | error e => rw [h2] at h; simp at h
    | ok rc =>
      rw [h2] at h; simp only [bindE_ok] at h
      cases h3 : ps.sessionClaim sess with
      | error e => rw [h3] at h; simp at h
      | ok sc =>
        rw [h3] at h; simp only [bindE_ok] at h
        by_cases hd : rc.digest = sc.digest
        · rw [if_pos hd] at h
          simp only [Except.ok.injEq] at h
          subst h
          exact ⟨rfl, rc, sc, h2, rfl, hd⟩
        · rw [if_neg hd] at h; simp at h

lemma finishSession_ok (ps : Prover) (ctx : VerifierContext) (sess : Session)
    (segments : List SegmentReceipt) (r : Receipt)
    (h : finishSession ps ctx sess segments = .ok r) :
    ∃ composite inner, chooseInner ps composite = .ok inner ∧
      finalizeReceipt ps ctx sess inner = .ok r := by
  unfold finishSession at h
  cases h1 : assembleComposite ps sess segments with
  | error e => rw [h1] at h; simp at h
  | ok composite =>
    rw [h1] at h; simp only [bindE_ok] at h
    cases h2 : ps.compositeVerify ctx composite with
    | error e => rw [h2] at h; simp at h
    | ok u =>
      rw [h2] at h; simp only [bindE_ok] at h
      cases h3 : ps.compositeClaim composite with
      | error e => rw [h3] at h; simp at h
      | ok cClaim =>
        rw [h3] at h; simp only [bindE_ok] at h
        cases h4 : ps.sessionClaim sess with
        | error e => rw [h4] at h; simp at h
        | ok sClaim =>
          rw [h4] at h; simp only [bindE_ok] at h
          by_cases hd : cClaim.digest = sClaim.digest
          · rw [if_pos hd] at h
            cases h5 : chooseInner ps composite with
            | error e => rw [h5] at h; simp at h
            | ok inner =>
              rw [h5] at h; simp only [bindE_ok] at h
              exact ⟨composite, inner, h5, h⟩
          · rw [if_neg hd] at h; simp at h

lemma proveSession_ok_finish (ps : Prover) (ctx : VerifierContext)
    (sess : Session) (evs : List SessEvent) (r : Receipt)
    (h : proveSession ps ctx sess = (evs, .ok r)) :
    ∃ segments, finishSession ps ctx sess segments = .ok r := by
  unfold proveSession at h
  rcases hps : proveSegments ps ctx sess.hooks sess.segments with ⟨evs0, res⟩
  rw [hps] at h
  cases res with
  | error e => simp at h
  | ok segments =>
    simp only [bindE_ok, Prod.mk.injEq] at h
    exact ⟨segments, h.2⟩

/-- C1: `prove_session` never returns a mismatched receipt.  On success the
returned Receipt's claim digest equals the session's claim digest.  The
equality is checked twice: right after assembling the composite receipt —
a mismatch there aborts `finishSession` with an error carrying both the
session digest and the receipt digest — and again on the final Receipt after
the optional compression step, with the same double-digest error. -/
theorem c1_prove_session_claim_digest (ps : Prover) (ctx : VerifierContext)
    (sess : Session) :
    (∀ evs r, proveSession ps ctx sess = (evs, .ok r) →
      ∃ rc sc, ps.receiptClaim r = .ok rc ∧ ps.sessionClaim sess = .ok sc ∧
        rc.digest = sc.digest) ∧
    (∀ segments composite cc sc,
      assembleComposite ps sess segments = .ok composite →
      ps.compositeVerify ctx composite = .ok () →
      ps.compositeClaim composite = .ok cc →
      ps.sessionClaim sess = .ok sc →
      cc.digest ≠ sc.digest →
      finishSession ps ctx sess segments =
        .error (.claimMismatch sc.digest cc.digest)) ∧
    (∀ inner rc sc,
      ps.receiptVerify ctx ⟨inner, journalBytes sess⟩ = .ok () →
      ps.receiptClaim ⟨inner, journalBytes sess⟩ = .ok rc →
      ps.sessionClaim sess = .ok sc →
      rc.digest ≠ sc.digest →
      finalizeReceipt ps ctx sess inner =
        .error (.claimMismatch sc.digest rc.digest)) := by
  refine ⟨?_, ?_, ?_⟩
  · intro evs r h
    obtain ⟨segments, hf⟩ := proveSession_ok_finish ps ctx sess evs r h
    obtain ⟨composite, inner, hchoose, hfin⟩ :=
      finishSession_ok ps ctx sess segments r hf
    exact (finalizeReceipt_ok ps ctx sess inner r hfin).2
  · intro segments composite cc sc h1 h2 h3 h4 hne
    unfold finishSession
    rw [h1]; simp only [bindE_ok]
    rw [h2]; simp only [bindE_ok]
    rw [h3]; simp only [bindE_ok]
    rw [h4]; simp only [bindE_ok]
    rw [if_neg hne]
  · intro inner rc sc h1 h2 h3 hne
    unfold finalizeReceipt
    rw [h1]; simp only [bindE_ok]
    rw [h2]; simp only [bindE_ok]
    rw [h3]; simp only [bindE_ok]
    rw [if_neg hne]

/-- Witness for C1: a concrete composite-claim mismatch aborts with the error
carrying both digests. -/
theorem c1_witness :
    finishSession mismatchProver ⟨0⟩ sessNoJournal [] =
      .error (.claimMismatch 0 1) :=
  (c1_prove_session_claim_digest mismatchProver ⟨0⟩ sessNoJournal).2.1
    [] (.mk [] [] none) ⟨1⟩ ⟨0⟩ rfl rfl rfl rfl (by decide)

/-- C5: for every successfully proved session, the representation of the
returned Receipt's inner proof is determined by the active hash suite:
"sha-256" yields a `Composite` inner representation and "poseidon" yields a
`Succinct` one (the composite is compressed), for an otherwise identical
session. -/
theorem c5_inner_representation_by_hash_suite (ps : Prover)
    (ctx : VerifierContext) (sess : Session) :
    ∀ evs r, proveSession ps ctx sess = (evs, .ok r) →
      (ps.hashSuiteName = "sha-256" → ∃ c, r.inner = .Composite c) ∧
      (ps.hashSuiteName = "poseidon" → ∃ s, r.inner = .Succinct s) := by
  intro evs r h
  obtain ⟨segments, hf⟩ := proveSession_ok_finish ps ctx sess evs r h
  obtain ⟨composite, inner, hchoose, hfin⟩ :=
    finishSession_ok ps ctx sess segments r hf
  have hr : r = ⟨inner, journalBytes sess⟩ :=
    (finalizeReceipt_ok ps ctx sess inner r hfin).1
  constructor
  · intro hsha
    have hne : ps.hashSuiteName ≠ "poseidon" := by rw [hsha]; decide
    unfold chooseInner at hchoose
    rw [if_neg hne] at hchoose
    simp only [Except.ok.injEq] at hchoose
    exact ⟨composite, by rw [hr, ← hchoose]⟩
  · intro hpos
    unfold chooseInner at hchoose
    rw [if_pos hpos] at hchoose
    cases hc : compress ps composite with
    | error e => rw [hc] at hchoose; simp at hchoose
    | ok s =>
      rw [hc] at hchoose; simp only [bindE_ok, Except.ok.injEq] at hchoose
      exact ⟨s, by rw [hr, ← hchoose]⟩

/-- Witness for C5 at concrete poseidon and sha-256 sessions. -/
theorem c5_witness :
    (∃ s, (Receipt.mk (.Succinct ⟨[0], ⟨0⟩⟩) []).inner = .Succinct s) ∧
    (∃ c, (Receipt.mk
        (.Composite (.mk [⟨[0], 0, "poseidon", ⟨0⟩⟩] [] none)) []).inner =
      .Composite c) :=
  ⟨(c5_inner_representation_by_hash_suite okProver ⟨0⟩ sessOneSeg
      [.preHook 3 0, .provedSegment 0, .postHook 3 0]
      (Receipt.mk (.Succinct ⟨[0], ⟨0⟩⟩) []) rfl).2 rfl,
   (c5_inner_representation_by_hash_suite shaProver ⟨0⟩ sessOneSeg
      [.preHook 3 0, .provedSegment 0, .postHook 3 0]
      (Receipt.mk
        (.Composite (.mk [⟨[0], 0, "poseidon", ⟨0⟩⟩] [] none)) []) rfl).1 rfl⟩

/-- C10: a successful `prove_session` returns a Receipt whose journal byte
string is empty when the session's optional journal is absent, and equals the
session's journal bytes unchanged when it is present. -/
theorem c10_receipt_journal_bytes (ps : Prover) (ctx : VerifierContext)
    (sess : Session) :
    ∀ evs r, proveSession ps ctx sess = (evs, .ok r) →
      (sess.journal = none → r.journal = []) ∧
      (∀ j, sess.journal = some j → r.journal = j.bytes) := by
  intro evs r h
  obtain ⟨segments, hf⟩ := proveSession_ok_finish ps ctx sess evs r h
  obtain ⟨composite, inner, hchoose, hfin⟩ :=
    finishSession_ok ps ctx sess segments r hf
  have hr : r = ⟨inner, journalBytes sess⟩ :=
    (finalizeReceipt_ok ps ctx sess inner r hfin).1
  subst hr
  constructor
  · intro hnone; simp [journalBytes, hnone]
  · intro j hj; simp [journalBytes, hj]

/-- Witness for C10 at a concrete session with a journal. -/
theorem c10_witness :
    (Receipt.mk (.Succinct ⟨[0], ⟨0⟩⟩) [1, 2]).journal = [1, 2] :=
  (c10_receipt_journal_bytes okProver ⟨0⟩ sessWithJournal
    [.provedSegment 0]
    (Receipt.mk (.Succinct ⟨[0], ⟨0⟩⟩) [1, 2]) rfl).2 ⟨[1, 2]⟩ rfl

lemma filterMap_provedIdx_pre (hooks : List Nat) (idx : Nat) :
    List.filterMap (provedIdx ∘ fun h => SessEvent.preHook h idx) hooks = [] := by
  induction hooks with
  | nil => rfl
  | cons h t ih => simp [List.filterMap_cons, Function.comp, provedIdx, ih]

lemma filterMap_provedIdx_post (hooks : List Nat) (idx : Nat) :
    List.filterMap (provedIdx ∘ fun h => SessEvent.postHook h idx) hooks = [] := by
  induction hooks with
  | nil => rfl
  | cons h t ih => simp [List.filterMap_cons, Function.comp, provedIdx, ih]

lemma filterMap_provedIdx_block (hooks : List Nat) (idx : Nat) :
    (segmentBlock hooks idx).filterMap provedIdx = [idx] := by
  simp [segmentBlock, List.filterMap_append, List.filterMap_cons, provedIdx,
    filterMap_provedIdx_pre, filterMap_provedIdx_post]

lemma filterMap_provedIdx_flatten (hooks : List Nat) :
    ∀ segs : List Segment,
      ((segs.map fun s => segmentBlock hooks s.index).flatten).filterMap provedIdx =
        segs.map Segment.index := by
  intro segs
  induction segs with
  | nil => rfl
  | cons s rest ih =>
    simp [List.filterMap_append, filterMap_provedIdx_block, ih]

lemma proveSegments_ok_trace (ps : Prover) (ctx : VerifierContext)
    (hooks : List Nat) :
    ∀ (refs : List SegmentRef) (evs : List SessEvent)
      (rs : List SegmentReceipt),
      proveSegments ps ctx hooks refs = (evs, .ok rs) →
      ∃ segs, mapEx ps.resolveRef refs = .ok segs ∧
        evs = (segs.map fun s => segmentBlock hooks s.index).flatten := by
  intro refs
  induction refs with
  | nil =>
    intro evs rs h
    simp only [proveSegments, Prod.mk.injEq] at h
    exact ⟨[], rfl, h.1.symm⟩
  | cons r rest ih =>
    intro evs rs h
    simp only [proveSegments] at h
    cases h1 : ps.resolveRef r with
    | error e => rw [h1] at h; simp at h
    | ok seg =>
      rw [h1] at h
      dsimp only at h
      cases h2 : ps.proveSegmentFn ctx seg with
      | error e => rw [h2] at h; simp at h
      | ok sr =>
        rw [h2] at h
        dsimp only at h
        rcases hrec : proveSegments ps ctx hooks rest with ⟨evs0, res⟩
        rw [hrec] at h
        cases res with
        | error e => simp at h
        | ok srs =>
          simp only [bindE_ok, Prod.mk.injEq, Except.ok.injEq] at h
          obtain ⟨hevs, hrs⟩ := h
          obtain ⟨segs, hm, hevs0⟩ := ih evs0 srs hrec
          refine ⟨seg :: segs, ?_, ?_⟩
          · simp [mapEx, h1, hm]
          · rw [← hevs, hevs0]
            simp [segmentBlock]

/-- C6: on a successful `prove_session`, the emitted event trace is exactly
the concatenation, over the session's segments in list order, of the block
pre-observer callbacks, then that segment's proof, then post-observer
callbacks — so every pre hook runs before its segment's proof, every post hook
after it, and no segment is proved before the previous segment's post hooks
have run.  Consequently the proof events occur in segment-list order, and when
the resolved segment indices are strictly increasing the proofs are produced
strictly in index order. -/
theorem c6_segment_order_and_hooks (ps : Prover) (ctx : VerifierContext)
    (sess : Session) :
    ∀ evs r, proveSession ps ctx sess = (evs, .ok r) →
      ∃ segs, mapEx ps.resolveRef sess.segments = .ok segs ∧
        evs = (segs.map fun s => segmentBlock sess.hooks s.index).flatten ∧
        evs.filterMap provedIdx = segs.map Segment.index ∧
        ((segs.map Segment.index).Chain' (· < ·) →
          (evs.filterMap provedIdx).Chain' (· < ·)) := by
  intro evs r h
  unfold proveSession at h
  rcases hps : proveSegments ps ctx sess.hooks sess.segments with ⟨evs0, res⟩
  rw [hps] at h
  cases res with
  | error e => simp at h
  | ok segments =>
    simp only [bindE_ok, Prod.mk.injEq] at h
    obtain ⟨hevs, -⟩ := h
    subst hevs
    obtain ⟨segs, hm, he⟩ :=
      proveSegments_ok_trace ps ctx sess.hooks sess.segments evs0 segments hps
    refine ⟨segs, hm, he, ?_, ?_⟩
    · rw [he, filterMap_provedIdx_flatten]
    · intro hch
      rw [he, filterMap_provedIdx_flatten]
      exact hch

/-- Witness for C6 at a concrete two-segment session with one hook. -/
theorem c6_witness :
    ∃ segs, mapEx okProver.resolveRef sessTwoSegs.segments = .ok segs ∧
      [SessEvent.preHook 7 0, SessEvent.provedSegment 0, SessEvent.postHook 7 0,
       SessEvent.preHook 7 1, SessEvent.provedSegment 1,
       SessEvent.postHook 7 1] =
        (segs.map fun s => segmentBlock sessTwoSegs.hooks s.index).flatten ∧
      ([SessEvent.preHook 7 0, SessEvent.provedSegment 0,
        SessEvent.postHook 7 0, SessEvent.preHook 7 1,
        SessEvent.provedSegment 1, SessEvent.postHook 7 1].filterMap provedIdx =
        segs.map Segment.index) ∧
      ((segs.map Segment.index).Chain' (· < ·) →
        ([SessEvent.preHook 7 0, SessEvent.provedSegment 0,
          SessEvent.postHook 7 0, SessEvent.preHook 7 1,
          SessEvent.provedSegment 1,
          SessEvent.postHook 7 1].filterMap provedIdx).Chain' (· < ·)) :=
  c6_segment_order_and_hooks okProver ⟨0⟩ sessTwoSegs
    [SessEvent.preHook 7 0, SessEvent.provedSegment 0, SessEvent.postHook 7 0,
     SessEvent.preHook 7 1, SessEvent.provedSegment 1, SessEvent.postHook 7 1]
    (Receipt.mk (.Succinct ⟨[0, 1], ⟨0⟩⟩) []) rfl

/-- C7: in every run of `prove_segment`, the transcript-relevant events form
a prefix of the fixed order code-commit, data-commit, accumulate,
accum-commit — the accumulator values are computed only after the code and
data groups are committed — and on success the whole order is realized;
the order never varies. -/
theorem c7_commit_order (ps : Prover) (ctx : VerifierContext) (seg : Segment) :
    ((proveSegmentT ps ctx seg).1.filter isCommitish) <+: commitOrder ∧
    (∀ r, (proveSegmentT ps ctx seg).2 = .ok r →
      (proveSegmentT ps ctx seg).1.filter isCommitish = commitOrder) := by
  unfold proveSegmentT
  cases h1 : ps.prepareGlobals seg with
  | error e => exact ⟨List.nil_prefix, by simp⟩
  | ok io =>
    cases h2 : ps.load seg with
    | error e => exact ⟨List.nil_prefix, by simp⟩
    | ok u =>
      cases h3 : ps.segGetClaim seg with
      | error e =>
        refine ⟨?_, by simp⟩
        simp [isCommitish, commitOrder, List.filter]
      | ok claim =>
        cases h4 : ps.segVerify ctx
            ⟨ps.finalizeSeal seg, seg.index, ps.hashSuiteName, claim⟩ with
        | error e =>
          refine ⟨?_, by simp [h4]⟩
          simp [h4, isCommitish, commitOrder, List.filter]
        | ok v =>
          refine ⟨?_, fun r h => ?_⟩
          · simp [h4, isCommitish, commitOrder, List.filter]
          · simp [h4, isCommitish, commitOrder, List.filter]

/-- Witness for C7 at a concrete successful segment proof. -/
theorem c7_witness :
    (proveSegmentT okProver ⟨0⟩ ⟨0, 20, 1024⟩).1.filter isCommitish =
      commitOrder :=
  (c7_commit_order okProver ⟨0⟩ ⟨0, 20, 1024⟩).2 ⟨[0], 0, "poseidon", ⟨0⟩⟩ rfl

/-- C8: with dev mode off, requesting a prover server with a hash-suite name
other than "sha-256" or "poseidon" fails immediately — on every compiled-in
backend — with an error naming the unsupported value, and no prover server is
constructed. -/
theorem c8_unknown_hashfn_rejected (bk : Backend) (opts : ProverOpts)
    (h1 : opts.hashfn ≠ "sha-256") (h2 : opts.hashfn ≠ "poseidon") :
    getProverServer false bk opts =
      ([], .error (.unsupportedHashfn opts.hashfn)) := by
  cases bk <;>
    simp [getProverServer, cudaGetProverServer, metalGetProverServer,
      cpuGetProverServer, h1, h2]

/-- Witness for C8 at the CPU backend and an unrecognized hash-suite name. -/
theorem c8_witness :
    getProverServer false .cpu ⟨"blake2b"⟩ =
      ([], .error (.unsupportedHashfn "blake2b")) :=
  c8_unknown_hashfn_rejected .cpu ⟨"blake2b"⟩ (by decide) (by decide)

/-- C9: with dev mode on, `get_prover_server` prints the reduced-security
warning and returns the stub prover for every options value — the hash-suite
name is never inspected, so construction always succeeds. -/
theorem c9_dev_mode_ignores_opts (bk : Backend) (opts : ProverOpts) :
    getProverServer true bk opts = ([devModeWarning], .ok .devStub) := rfl
